import Mathlib

/-
Verification of the calibration / coordinate-transformation core of the
VisionCalibrationSoftware repository.

The development shallowly embeds the relevant Python code over exact
rationals:
- vision_calib/core/transform.py   (CoordinateTransformer)
- vision_calib/core/intrinsic.py   (IntrinsicCalibrator)
- vision_calib/core/corner_detector.py (CornerDetector)
- vision_calib/core/types.py       (data model)
- the legacy tool file (grid coordinate generation, estimate_extrinsic)
- vision_calib/ui/main_window.py   (per-algorithm minimum-point gate)

External OpenCV primitives (undistortPoints, projectPoints, solvePnP,
findChessboardCorners, cornerSubPix, calibrateCamera) are modelled as
oracle parameters; cv2.Rodrigues is modelled by the explicit Rodrigues
formula with the cosine and sine of the rotation angle abstracted as a
point on the unit circle.  Quantities the Python code computes as square
roots (L2 reprojection errors) are represented by their squares, which
determines them uniquely since both sides are nonnegative.
-/

namespace VisionCalib

/-- Planar point with exact rational coordinates (a pixel or a normalized
camera coordinate). -/
structure Pt2 where
  x : ℚ
  y : ℚ
deriving DecidableEq, Repr, Inhabited

/-- Spatial point / vector with exact rational coordinates. -/
structure Vec3 where
  x : ℚ
  y : ℚ
  z : ℚ
deriving DecidableEq, Repr, Inhabited

namespace Vec3

def add (v w : Vec3) : Vec3 := ⟨v.x + w.x, v.y + w.y, v.z + w.z⟩

def sub (v w : Vec3) : Vec3 := ⟨v.x - w.x, v.y - w.y, v.z - w.z⟩

def neg (v : Vec3) : Vec3 := ⟨-v.x, -v.y, -v.z⟩

def smul (q : ℚ) (v : Vec3) : Vec3 := ⟨q * v.x, q * v.y, q * v.z⟩

def zero : Vec3 := ⟨0, 0, 0⟩

end Vec3

/-- Row-major 3x3 rational matrix. -/
structure Mat3 where
  m00 : ℚ
  m01 : ℚ
  m02 : ℚ
  m10 : ℚ
  m11 : ℚ
  m12 : ℚ
  m20 : ℚ
  m21 : ℚ
  m22 : ℚ
deriving DecidableEq, Repr, Inhabited

namespace Mat3

def transpose (A : Mat3) : Mat3 :=
  ⟨A.m00, A.m10, A.m20, A.m01, A.m11, A.m21, A.m02, A.m12, A.m22⟩

def mul (A B : Mat3) : Mat3 :=
  ⟨A.m00 * B.m00 + A.m01 * B.m10 + A.m02 * B.m20,
   A.m00 * B.m01 + A.m01 * B.m11 + A.m02 * B.m21,
   A.m00 * B.m02 + A.m01 * B.m12 + A.m02 * B.m22,
   A.m10 * B.m00 + A.m11 * B.m10 + A.m12 * B.m20,
   A.m10 * B.m01 + A.m11 * B.m11 + A.m12 * B.m21,
   A.m10 * B.m02 + A.m11 * B.m12 + A.m12 * B.m22,
   A.m20 * B.m00 + A.m21 * B.m10 + A.m22 * B.m20,
   A.m20 * B.m01 + A.m21 * B.m11 + A.m22 * B.m21,
   A.m20 * B.m02 + A.m21 * B.m12 + A.m22 * B.m22⟩

def mulVec (A : Mat3) (v : Vec3) : Vec3 :=
  ⟨A.m00 * v.x + A.m01 * v.y + A.m02 * v.z,
   A.m10 * v.x + A.m11 * v.y + A.m12 * v.z,
   A.m20 * v.x + A.m21 * v.y + A.m22 * v.z⟩

def one : Mat3 := ⟨1, 0, 0, 0, 1, 0, 0, 0, 1⟩

end Mat3

/-- Rodrigues rotation matrix for a rotation of angle theta about the unit
axis a, with c and s standing for cos theta and sin theta.  This is the
matrix cv2.Rodrigues returns for the rotation vector theta * a:
R = c I + s [a]x + (1 - c) a a^T, written out entrywise. -/
def rodrigues (c s : ℚ) (a : Vec3) : Mat3 :=
  ⟨c + (1 - c) * a.x * a.x,
   (1 - c) * a.x * a.y - s * a.z,
   (1 - c) * a.x * a.z + s * a.y,
   (1 - c) * a.y * a.x + s * a.z,
   c + (1 - c) * a.y * a.y,
   (1 - c) * a.y * a.z - s * a.x,
   (1 - c) * a.z * a.x - s * a.y,
   (1 - c) * a.z * a.y + s * a.x,
   c + (1 - c) * a.z * a.z⟩

/-- The hypothesis that c and s are the cosine and sine of one angle. -/
def OnCircle (c s : ℚ) : Prop := c ^ 2 + s ^ 2 = 1

/-- The hypothesis that a is a unit axis vector. -/
def UnitAxis (a : Vec3) : Prop := a.x ^ 2 + a.y ^ 2 + a.z ^ 2 = 1

/-! Embedding of vision_calib/core/transform.py (CoordinateTransformer).

The transformer caches R (the rotation matrix cv2.Rodrigues derives from
the stored rotation vector), R_inv = R.T and t.  Lens undistortion
(cv2.undistortPoints inside pixel_to_normalized with undistort=True) is an
external iterative primitive; it is passed in as the oracle field undist,
mapping a pixel to its undistorted normalized camera coordinates. -/

/-- Error raised by CoordinateTransformer operations.  The only raise in
transform.py is the ValueError of _check_extrinsic (missing extrinsic). -/
inductive TransformError where
  | missingExtrinsic
deriving DecidableEq, Repr

/-- CoordinateTransformer state: the undistortion oracle together with the
cached extrinsic (rotation matrix and translation), when one is set. -/
structure Transformer where
  undist : Pt2 → Pt2
  extrinsic : Option (Mat3 × Vec3)

/-- world_to_camera for one point: P_camera = R @ P_world + t. -/
def worldToCameraPoint (R : Mat3) (t : Vec3) (w : Vec3) : Vec3 :=
  (R.mulVec w).add t

/-- camera_to_world for one point: P_world = R^T @ (P_camera - t). -/
def cameraToWorldPoint (R : Mat3) (t : Vec3) (p : Vec3) : Vec3 :=
  R.transpose.mulVec (p.sub t)

/-- Camera position in the world frame, camera_pos_world = -R_inv @ t,
as computed inside pixel_to_world. -/
def camPosWorld (R : Mat3) (t : Vec3) : Vec3 :=
  (R.transpose.mulVec t).neg

/-- World-frame direction of the ray through one pixel:
ray_world = R_inv @ [x, y, 1] with (x, y) the undistorted normalized
coordinates of the pixel. -/
def rayWorld (undist : Pt2 → Pt2) (R : Mat3) (p : Pt2) : Vec3 :=
  R.transpose.mulVec ⟨(undist p).x, (undist p).y, 1⟩

/-- Per-point body of the pixel_to_world loop (transform.py lines
263-280): intersect the back-projected ray with the plane Z = z_world.
The scalar t_param = (z_world - camera_pos[2]) / ray_world[2] is divided
unconditionally, exactly as in the source; there is no parallel-ray
check (rational division by zero yields the junk value 0 where the
floating-point source yields a non-finite coordinate). -/
def pixelToWorldPoint (undist : Pt2 → Pt2) (R : Mat3) (t : Vec3)
    (zWorld : ℚ) (p : Pt2) : Vec3 :=
  let camPos := camPosWorld R t
  let ray := rayWorld undist R p
  let tParam := (zWorld - camPos.z) / ray.z
  camPos.add (Vec3.smul tParam ray)

/-- pixel_to_world: checks the extrinsic, then converts every pixel of the
batch independently through the per-point loop body. -/
def Transformer.pixelToWorld (tr : Transformer) (zWorld : ℚ)
    (ps : List Pt2) : Except TransformError (List Vec3) :=
  match tr.extrinsic with
  | none => .error .missingExtrinsic
  | some (R, t) => .ok (ps.map (pixelToWorldPoint tr.undist R t zWorld))

/-- world_to_camera on a batch, with the extrinsic check. -/
def Transformer.worldToCamera (tr : Transformer) (ps : List Vec3) :
    Except TransformError (List Vec3) :=
  match tr.extrinsic with
  | none => .error .missingExtrinsic
  | some (R, t) => .ok (ps.map (worldToCameraPoint R t))

/-- camera_to_world on a batch, with the extrinsic check. -/
def Transformer.cameraToWorld (tr : Transformer) (ps : List Vec3) :
    Except TransformError (List Vec3) :=
  match tr.extrinsic with
  | none => .error .missingExtrinsic
  | some (R, t) => .ok (ps.map (cameraToWorldPoint R t))

/-! Embedding of vision_calib/core/types.py (CheckerboardConfig) and
vision_calib/core/corner_detector.py (CornerDetector.detect).

cv2.findChessboardCorners is modelled by its output (PrimDetection) and
cv2.cornerSubPix by an oracle function on corner lists whose contract
(section 6 of the code documentation) preserves the point count. -/

/-- CheckerboardConfig: inner-corner counts and physical square size. -/
structure CheckerboardConfig where
  rows : ℕ
  cols : ℕ
  squareSize : ℚ
deriving DecidableEq, Repr

/-- num_corners = rows * cols. -/
def CheckerboardConfig.numCorners (cfg : CheckerboardConfig) : ℕ :=
  cfg.rows * cfg.cols

/-- generate_object_points: canonical Z = 0 object points, column-fastest,
point k maps to ((k mod cols) * square, (k / cols) * square, 0). -/
def generateObjectPoints (cfg : CheckerboardConfig) : List Vec3 :=
  (List.range cfg.numCorners).map fun k =>
    ⟨(k % cfg.cols : ℕ) * cfg.squareSize, (k / cfg.cols : ℕ) * cfg.squareSize, 0⟩

/-- Output of the external cv2.findChessboardCorners primitive: a found
flag and an optional ordered corner list. -/
structure PrimDetection where
  found : Bool
  corners : Option (List Pt2)
deriving DecidableEq, Repr

/-- CornerDetectionResult: success flag, optional corners, image size and
an error message. -/
structure DetectionOutcome where
  success : Bool
  corners : Option (List Pt2)
  imageSize : ℕ × ℕ
  errorMsg : String
deriving DecidableEq, Repr

/-- CornerDetector.detect on an already-loaded image (corner_detector.py
lines 143-187): fails when the primitive reports failure or returns no
corner array; fails when the corner count differs from num_corners; on
success optionally refines the corners through the cornerSubPix oracle. -/
def detect (cfg : CheckerboardConfig) (refineCorners : Bool)
    (refine : List Pt2 → List Pt2) (imgSize : ℕ × ℕ)
    (prim : PrimDetection) : DetectionOutcome :=
  match prim.found, prim.corners with
  | true, some cs =>
    if cs.length ≠ cfg.numCorners then
      { success := false, corners := none, imageSize := imgSize,
        errorMsg := "wrong corner count" }
    else
      { success := true,
        corners := some (if refineCorners then refine cs else cs),
        imageSize := imgSize, errorMsg := "" }
  | _, _ =>
    { success := false, corners := none, imageSize := imgSize,
      errorMsg := "No checkerboard pattern found" }

/-! Embedding of vision_calib/core/intrinsic.py (IntrinsicCalibrator).

cv2.calibrateCamera is modelled by an oracle returning a SolverOutput and
cv2.projectPoints by a per-point projection oracle. -/

/-- Accumulated calibrator state: the accepted object-point and
image-point lists, the cached image size and all detection results. -/
structure CalibState where
  objectPoints : List (List Vec3)
  imagePoints : List (List Pt2)
  imageSize : Option (ℕ × ℕ)
  detections : List DetectionOutcome
deriving DecidableEq, Repr

/-- Freshly constructed calibrator storage. -/
def initState : CalibState := ⟨[], [], none, []⟩

/-- MIN_IMAGES_FOR_CALIBRATION = 3. -/
def MIN_IMAGES_FOR_CALIBRATION : ℕ := 3

/-- num_valid_images: number of images with successfully detected
corners. -/
def numValidImages (st : CalibState) : ℕ := st.imagePoints.length

/-- can_calibrate: num_valid_images >= MIN_IMAGES_FOR_CALIBRATION. -/
def canCalibrate (st : CalibState) : Bool :=
  MIN_IMAGES_FOR_CALIBRATION ≤ numValidImages st

/-- IntrinsicCalibrator.add_image: run corner detection, append the
result, and on success (with a corner array present) store the pair and
cache the image size of the first successful detection. -/
def addImage (cfg : CheckerboardConfig) (refineCorners : Bool)
    (refine : List Pt2 → List Pt2) (st : CalibState) (imgSize : ℕ × ℕ)
    (prim : PrimDetection) : CalibState :=
  let r := detect cfg refineCorners refine imgSize prim
  let st1 := { st with detections := st.detections ++ [r] }
  match r.success, r.corners with
  | true, some cs =>
    { st1 with
      objectPoints := st1.objectPoints ++ [generateObjectPoints cfg],
      imagePoints := st1.imagePoints ++ [cs],
      imageSize := match st1.imageSize with
        | none => some r.imageSize
        | some sz => some sz }
  | _, _ => st1

/-- IntrinsicCalibrator.clear: discard all pairs, detection results and
the cached image size. -/
def clearCalibrator (_st : CalibState) : CalibState := initState

/-- One pose returned by the external calibration solver (rvec, tvec). -/
structure Pose where
  rvec : Vec3
  tvec : Vec3
deriving DecidableEq, Repr

/-- Output contract of the external cv2.calibrateCamera solver: overall
RMS error, camera matrix, distortion coefficients and one pose per
image. -/
structure SolverOutput where
  rms : ℚ
  cameraMatrix : Mat3
  distCoeffs : List ℚ
  poses : List Pose

/-- Errors raised by IntrinsicCalibrator.calibrate. -/
inductive CalibError where
  | insufficientImages
  | cornerDetection
deriving DecidableEq, Repr

/-- CameraIntrinsic produced by a calibration. -/
structure CameraIntrinsic where
  cameraMatrix : Mat3
  distCoeffs : List ℚ
  imageSize : ℕ × ℕ
  reprojErr : ℚ

/-- CalibrationResult fields relevant here.  Per-image errors are
represented by their squares (the source stores
cv2.norm(detected, projected, L2) / N, a square root; squaring is
injective on the nonnegative values involved). -/
structure CalibrationRecord where
  intrinsic : CameraIntrinsic
  checkerboard : CheckerboardConfig
  numImagesUsed : ℕ
  perImageErrSq : List ℚ

/-- Squared Euclidean distance between two planar points. -/
def sqDist (p q : Pt2) : ℚ := (p.x - q.x) ^ 2 + (p.y - q.y) ^ 2

/-- Square of one per-image error term of intrinsic.py lines 244-255:
(cv2.norm(detected, projected, NORM_L2) / len(projected)) squared,
i.e. the summed squared residuals divided by the squared point count. -/
def perImageErrSqOf (detected projected : List Pt2) : ℚ :=
  (List.zipWith sqDist detected projected).sum /
    ((projected.length : ℚ)) ^ 2

/-- IntrinsicCalibrator.calibrate: fail fast with InsufficientImages
below the minimum image count, fail when no image size was cached,
otherwise delegate to the solver oracle and recompute, for every accepted
image, its own reprojection error from its own returned pose. -/
def calibrate (cfg : CheckerboardConfig) (st : CalibState)
    (solve : List (List Vec3) → List (List Pt2) → ℕ × ℕ → SolverOutput)
    (proj : Pose → Mat3 → List ℚ → Vec3 → Pt2) :
    Except CalibError CalibrationRecord :=
  if canCalibrate st = false then
    .error .insufficientImages
  else
    match st.imageSize with
    | none => .error .cornerDetection
    | some sz =>
      let out := solve st.objectPoints st.imagePoints sz
      let errs := (List.range st.objectPoints.length).map fun i =>
        let objs := st.objectPoints.getD i []
        let pose := out.poses.getD i ⟨Vec3.zero, Vec3.zero⟩
        let projected := objs.map (proj pose out.cameraMatrix out.distCoeffs)
        perImageErrSqOf (st.imagePoints.getD i []) projected
      .ok ⟨⟨out.cameraMatrix, out.distCoeffs, sz, out.rms⟩, cfg,
        numValidImages st, errs⟩

/-- Interaction trace elements of an IntrinsicCalibrator: add one image
(through corner detection) or clear the accumulated state. -/
inductive CalibOp where
  | addImage (imgSize : ℕ × ℕ) (prim : PrimDetection)
  | clear
deriving DecidableEq, Repr

/-- One calibrator operation applied to the state. -/
def stepOp (cfg : CheckerboardConfig) (refineCorners : Bool)
    (refine : List Pt2 → List Pt2) (st : CalibState) (op : CalibOp) :
    CalibState :=
  match op with
  | .addImage sz prim => addImage cfg refineCorners refine st sz prim
  | .clear => clearCalibrator st

/-- A whole interaction run from a freshly constructed calibrator. -/
def runOps (cfg : CheckerboardConfig) (refineCorners : Bool)
    (refine : List Pt2 → List Pt2) (ops : List CalibOp) : CalibState :=
  ops.foldl (stepOp cfg refineCorners refine) initState

/-- Whether an operation is an image addition whose detection succeeds. -/
def opAccepted (cfg : CheckerboardConfig) (refineCorners : Bool)
    (refine : List Pt2 → List Pt2) (op : CalibOp) : Bool :=
  match op with
  | .addImage sz prim => (detect cfg refineCorners refine sz prim).success
  | .clear => false

/-- Accumulator step keeping only the operations after the last clear. -/
def clearStep (acc : List CalibOp) (op : CalibOp) : List CalibOp :=
  match op with
  | .clear => []
  | o => acc ++ [o]

/-- The operations performed since the most recent clear. -/
def opsSinceClear (ops : List CalibOp) : List CalibOp :=
  ops.foldl clearStep []

/-- The image size of the first accepted detection in an operation
sequence, if any. -/
def firstAcceptedSize (cfg : CheckerboardConfig) (refineCorners : Bool)
    (refine : List Pt2 → List Pt2) (ops : List CalibOp) :
    Option (ℕ × ℕ) :=
  ops.findSome? fun op =>
    match op with
    | .addImage sz prim =>
      if (detect cfg refineCorners refine sz prim).success then some sz
      else none
    | .clear => none

/-! Embedding of generate_chessboard_coords and
get_grid_direction_coeff from the legacy tool file (lines 634-698 and
755-766): mapping checkerboard grid indices to physical robot
coordinates under an operator-chosen axis correspondence. -/

/-- The four choices for a physical axis direction on the grid. -/
inductive GridDirection where
  | imageXPos
  | imageXNeg
  | imageYPos
  | imageYNeg
deriving DecidableEq, Repr

/-- get_grid_direction_coeff: the (column, row) coefficients of a
direction choice. -/
def gridDirectionCoeff (d : GridDirection) : ℚ × ℚ :=
  match d with
  | .imageXPos => (1, 0)
  | .imageXNeg => (-1, 0)
  | .imageYPos => (0, 1)
  | .imageYNeg => (0, -1)

/-- Failures of grid coordinate generation: origin index out of range, or
parallel (degenerate) axis directions. -/
inductive GridGenError where
  | originOutOfRange
  | degenerateAxes
deriving DecidableEq, Repr

/-- One generated grid point: 1-based id and physical coordinates. -/
structure GridPoint where
  id : ℕ
  wx : ℚ
  wy : ℚ
deriving DecidableEq, Repr, Inhabited

/-- Error-propagating map: transform every element in order, stopping
with no partial output at the first failure (the Python loop body shows
its error dialog and returns before appending anything, and the failing
check is iteration-invariant, so it can only fire at the very first
iteration). -/
def exceptMap {α β ε : Type} (f : α → Except ε β) : List α → Except ε (List β)
  | [] => .ok []
  | x :: xs =>
    match f x with
    | .error e => .error e
    | .ok y =>
      match exceptMap f xs with
      | .error e => .error e
      | .ok ys => .ok (y :: ys)

/-- Loop body of generate_chessboard_coords for grid point (i, j):
check the determinant (the source tests abs(det) < 1e-10, which on the
coefficient domain of -1, 0, 1 coincides with det = 0), then solve the
2x2 system through the explicit inverse and place the physical
coordinate at origin + (a, b) * spacing. -/
def gridPointCoord (ox oy spacing : ℚ) (i0 j0 : ℕ) (uxi uxj uyi uyj : ℚ)
    (gx : ℕ) (ji : ℕ × ℕ) : Except GridGenError GridPoint :=
  let di : ℚ := (ji.2 : ℚ) - (i0 : ℚ)
  let dj : ℚ := (ji.1 : ℚ) - (j0 : ℚ)
  let det := uxi * uyj - uyi * uxj
  if det = 0 then .error .degenerateAxes
  else
    let inv11 := uyj / det
    let inv12 := -uyi / det
    let inv21 := -uxj / det
    let inv22 := uxi / det
    let a := inv11 * di + inv12 * dj
    let b := inv21 * di + inv22 * dj
    .ok ⟨ji.1 * gx + ji.2 + 1, ox + a * spacing, oy + b * spacing⟩

/-- The ok payload of gridPointCoord, for stating its success case. -/
def gridPointValue (ox oy spacing : ℚ) (i0 j0 : ℕ)
    (uxi uxj uyi uyj : ℚ) (gx : ℕ) (ji : ℕ × ℕ) : GridPoint :=
  let di : ℚ := (ji.2 : ℚ) - (i0 : ℚ)
  let dj : ℚ := (ji.1 : ℚ) - (j0 : ℚ)
  let det := uxi * uyj - uyi * uxj
  let a := uyj / det * di + -uyi / det * dj
  let b := -uxj / det * di + uxi / det * dj
  ⟨ji.1 * gx + ji.2 + 1, ox + a * spacing, oy + b * spacing⟩

/-- generate_chessboard_coords: validate the 1-based robot origin index,
locate it in the grid (i0 = idx mod gx, j0 = idx div gx), fetch the two
direction coefficient pairs, and produce one physical coordinate per
grid point, iterating rows outside and columns inside. -/
def generateChessboardCoords (ox oy : ℚ) (gx gy : ℕ) (spacing : ℚ)
    (robotPoint : ℕ) (xdir ydir : GridDirection) :
    Except GridGenError (List GridPoint) :=
  if robotPoint < 1 ∨ robotPoint > gx * gy then .error .originOutOfRange
  else
    let idx := robotPoint - 1
    let i0 := idx % gx
    let j0 := idx / gx
    let ux := gridDirectionCoeff xdir
    let uy := gridDirectionCoeff ydir
    exceptMap
      (gridPointCoord ox oy spacing i0 j0 ux.1 ux.2 uy.1 uy.2 gx)
      ((List.range gy).flatMap fun j => (List.range gx).map fun i => (j, i))

/-! Embedding of the pose-solve entry points: estimate_extrinsic of the
legacy tool (lines 1993-2024) and the per-algorithm minimum-point gate of
main_window (lines 1410-1417 and 2596-2645).  cv2.solvePnP is an oracle
returning the success flag with rvec and tvec; the reprojection-error
statistics of estimate_extrinsic are display-only and the retained state
is the estimated (rvec, tvec) pair. -/

/-- The six PnP algorithm families selectable in either user interface. -/
inductive PnpAlgorithm where
  | iterative
  | epnp
  | p3p
  | ap3p
  | ippe
  | ippeSquare
deriving DecidableEq, Repr

/-- Per-algorithm minimum point count of main_window: 3 for the two
three-point families, 4 for all others. -/
def minPoints (a : PnpAlgorithm) : ℕ :=
  match a with
  | .p3p => 3
  | .ap3p => 3
  | _ => 4

/-- One manually marked correspondence of the legacy tool: pixel
coordinates and world coordinates (world Z fixed at 0). -/
structure MarkPoint where
  px : ℚ
  py : ℚ
  wx : ℚ
  wy : ℚ
deriving DecidableEq, Repr

/-- Pose-solve failures: too few correspondences, or no numerical
solution from the external primitive. -/
inductive PoseError where
  | tooFewPoints
  | solveFailed
deriving DecidableEq, Repr

/-- estimate_extrinsic of the legacy tool: reject fewer than 4 points
up front regardless of the selected algorithm, then build the index
aligned 3-D/2-D arrays and delegate to the solvePnP oracle with the
selected algorithm flag. -/
def estimateExtrinsic (pointData : List MarkPoint) (algo : PnpAlgorithm)
    (solvePnP : List Vec3 → List Pt2 → PnpAlgorithm →
      Option (Vec3 × Vec3)) : Except PoseError (Vec3 × Vec3) :=
  if pointData.length < 4 then .error .tooFewPoints
  else
    let objectPoints := pointData.map fun p => (⟨p.wx, p.wy, 0⟩ : Vec3)
    let imagePoints := pointData.map fun p => (⟨p.px, p.py⟩ : Pt2)
    match solvePnP objectPoints imagePoints algo with
    | none => .error .solveFailed
    | some (rvec, tvec) => .ok (rvec, tvec)

/-- Which point source the main-window extrinsic computation selects. -/
inductive PoseSource where
  | webcamPoints
  | pointData
deriving DecidableEq, Repr

/-- The main-window source-selection gate: marked webcam points are
preferred when they meet the algorithm minimum, the point-data tab is
the fallback, and otherwise the request is rejected before any solve
attempt. -/
def selectPoseSource (algo : PnpAlgorithm) (validWebcam : ℕ)
    (pointDataCount : ℕ) : Except PoseError PoseSource :=
  if validWebcam ≥ minPoints algo then .ok .webcamPoints
  else if pointDataCount ≥ minPoints algo then .ok .pointData
  else .error .tooFewPoints

/-! ### Theorems -/

/-- A Rodrigues matrix is orthogonal: its transpose is a left inverse. -/
theorem rodrigues_transpose_mul (c s : ℚ) (a : Vec3)
    (h1 : OnCircle c s) (h2 : UnitAxis a) :
    (rodrigues c s a).transpose.mul (rodrigues c s a) = Mat3.one := by
  obtain ⟨x, y, z⟩ := a
  unfold OnCircle at h1
  unfold UnitAxis at h2
  simp only at h1 h2
  simp only [rodrigues, Mat3.transpose, Mat3.mul, Mat3.one, Mat3.mk.injEq]
  refine ⟨?_, ?_, ?_, ?_, ?_, ?_, ?_, ?_, ?_⟩
  · linear_combination ((1 - c) ^ 2 * x ^ 2 + s ^ 2) * h2 + (1 - x ^ 2) * h1
  · linear_combination x * y * (1 - c) ^ 2 * h2 - x * y * h1
  · linear_combination x * z * (1 - c) ^ 2 * h2 - x * z * h1
  · linear_combination x * y * (1 - c) ^ 2 * h2 - x * y * h1
  · linear_combination ((1 - c) ^ 2 * y ^ 2 + s ^ 2) * h2 + (1 - y ^ 2) * h1
  · linear_combination y * z * (1 - c) ^ 2 * h2 - y * z * h1
  · linear_combination x * z * (1 - c) ^ 2 * h2 - x * z * h1
  · linear_combination y * z * (1 - c) ^ 2 * h2 - y * z * h1
  · linear_combination ((1 - c) ^ 2 * z ^ 2 + s ^ 2) * h2 + (1 - z ^ 2) * h1

/-- Matrix-vector product distributes over matrix product. -/
theorem mul_mulVec (A B : Mat3) (v : Vec3) :
    (A.mul B).mulVec v = A.mulVec (B.mulVec v) := by
  simp only [Mat3.mul, Mat3.mulVec, Vec3.mk.injEq]
  refine ⟨by ring, by ring, by ring⟩

/-- The identity matrix acts as the identity on vectors. -/
theorem one_mulVec (v : Vec3) : Mat3.one.mulVec v = v := by
  simp only [Mat3.one, Mat3.mulVec]
  obtain ⟨x, y, z⟩ := v
  simp only [Vec3.mk.injEq]
  refine ⟨by ring, by ring, by ring⟩

/-- Transposing a Rodrigues matrix negates the sine part. -/
theorem rodrigues_transpose (c s : ℚ) (a : Vec3) :
    (rodrigues c s a).transpose = rodrigues c (-s) a := by
  obtain ⟨x, y, z⟩ := a
  simp only [rodrigues, Mat3.transpose, Mat3.mk.injEq]
  refine ⟨trivial, by ring, by ring, by ring, trivial, by ring, by ring,
    by ring, trivial⟩

/-- A Rodrigues matrix is orthogonal: its transpose is a right inverse. -/
theorem rodrigues_mul_transpose (c s : ℚ) (a : Vec3)
    (h1 : OnCircle c s) (h2 : UnitAxis a) :
    (rodrigues c s a).mul (rodrigues c s a).transpose = Mat3.one := by
  have h1n : OnCircle c (-s) := by
    unfold OnCircle at h1 ⊢
    linear_combination h1
  have h := rodrigues_transpose_mul c (-s) a h1n h2
  rw [rodrigues_transpose, neg_neg] at h
  rw [rodrigues_transpose]
  exact h

/-- Matrix-vector product commutes with vector negation. -/
theorem mulVec_neg (A : Mat3) (v : Vec3) :
    A.mulVec (Vec3.neg v) = Vec3.neg (A.mulVec v) := by
  simp only [Mat3.mulVec, Vec3.neg, Vec3.mk.injEq]
  refine ⟨by ring, by ring, by ring⟩

/-- Adding and then subtracting the same vector is the identity. -/
theorem add_sub_cancel_vec (v t : Vec3) : (v.add t).sub t = v := by
  obtain ⟨a, b, c⟩ := v
  simp only [Vec3.add, Vec3.sub, Vec3.mk.injEq]
  refine ⟨by ring, by ring, by ring⟩

/-- A vector plus its negation is zero. -/
theorem neg_add_cancel_vec (v : Vec3) : (Vec3.neg v).add v = Vec3.zero := by
  simp only [Vec3.neg, Vec3.add, Vec3.zero, Vec3.mk.injEq]
  refine ⟨by ring, by ring, by ring⟩

/-- Claim C9: for every world point w and every valid extrinsic whose
rotation matrix R is derived from a Rodrigues rotation vector (cosine c,
sine s, unit axis a) with translation t, camera_to_world inverts
world_to_camera exactly: R^T @ ((R @ w + t) - t) = w. -/
theorem world_camera_roundtrip (c s : ℚ) (a : Vec3) (t w : Vec3)
    (h1 : OnCircle c s) (h2 : UnitAxis a) :
    cameraToWorldPoint (rodrigues c s a) t
      (worldToCameraPoint (rodrigues c s a) t w) = w := by
  unfold cameraToWorldPoint worldToCameraPoint
  rw [add_sub_cancel_vec, ← mul_mulVec, rodrigues_transpose_mul c s a h1 h2,
    one_mulVec]

/-- Witness for C9 at a concrete rotation (cos = 3/5, sin = 4/5 about the
z axis), translation (1, 2, 3) and world point (5, 7, 9). -/
theorem world_camera_roundtrip_witness :
    OnCircle (3/5) (4/5) ∧ UnitAxis ⟨0, 0, 1⟩ ∧
      cameraToWorldPoint (rodrigues (3/5) (4/5) ⟨0, 0, 1⟩) ⟨1, 2, 3⟩
        (worldToCameraPoint (rodrigues (3/5) (4/5) ⟨0, 0, 1⟩) ⟨1, 2, 3⟩
          ⟨5, 7, 9⟩) = ⟨5, 7, 9⟩ := by
  have h1 : OnCircle (3/5 : ℚ) (4/5) := by unfold OnCircle; norm_num
  have h2 : UnitAxis ⟨0, 0, 1⟩ := by unfold UnitAxis; norm_num
  exact ⟨h1, h2, world_camera_roundtrip (3/5) (4/5) ⟨0, 0, 1⟩ ⟨1, 2, 3⟩
    ⟨5, 7, 9⟩ h1 h2⟩

/-- Claim C1: with an extrinsic whose rotation matrix is the Rodrigues
matrix of (c, s, a) and translation t, and a pixel whose world-frame ray
has nonzero Z component, pixel_to_world returns C + s0 * r_w where
C = -R^T t is the camera position in the world frame (the point whose
camera coordinates are zero), r_w = R^T [x, y, 1] for the undistorted
normalized coordinates (x, y) of the pixel, and
s0 = (z_world - C.z) / r_w.z; the returned point lies on the plane
Z = z_world. -/
theorem pixel_to_world_is_ray_plane_intersection (c s : ℚ) (a : Vec3)
    (t : Vec3) (u : Pt2 → Pt2) (p : Pt2) (zw : ℚ)
    (h1 : OnCircle c s) (h2 : UnitAxis a)
    (hz : (rayWorld u (rodrigues c s a) p).z ≠ 0) :
    pixelToWorldPoint u (rodrigues c s a) t zw p =
      (camPosWorld (rodrigues c s a) t).add
        (Vec3.smul
          ((zw - (camPosWorld (rodrigues c s a) t).z) /
            (rayWorld u (rodrigues c s a) p).z)
          (rayWorld u (rodrigues c s a) p)) ∧
    (pixelToWorldPoint u (rodrigues c s a) t zw p).z = zw ∧
    worldToCameraPoint (rodrigues c s a) t
      (camPosWorld (rodrigues c s a) t) = Vec3.zero := by
  refine ⟨rfl, ?_, ?_⟩
  · show (camPosWorld (rodrigues c s a) t).z +
      (zw - (camPosWorld (rodrigues c s a) t).z) /
        (rayWorld u (rodrigues c s a) p).z *
        (rayWorld u (rodrigues c s a) p).z = zw
    rw [div_mul_cancel₀ _ hz]
    ring
  · unfold worldToCameraPoint camPosWorld
    rw [mulVec_neg, ← mul_mulVec, rodrigues_mul_transpose c s a h1 h2,
      one_mulVec, neg_add_cancel_vec]

/-- Witness for C1: identity rotation (c = 1, s = 0, axis z), translation
(2, 3, 10), identity undistortion, pixel (0, 0), target plane Z = 0. -/
theorem pixel_to_world_is_ray_plane_intersection_witness :
    OnCircle 1 0 ∧ UnitAxis ⟨0, 0, 1⟩ ∧
      (rayWorld id (rodrigues 1 0 ⟨0, 0, 1⟩) ⟨0, 0⟩).z ≠ 0 ∧
      (pixelToWorldPoint id (rodrigues 1 0 ⟨0, 0, 1⟩) ⟨2, 3, 10⟩ 0
          ⟨0, 0⟩).z = 0 := by
  have h1 : OnCircle 1 0 := by unfold OnCircle; norm_num
  have h2 : UnitAxis ⟨0, 0, 1⟩ := by unfold UnitAxis; norm_num
  have hz : (rayWorld id (rodrigues 1 0 ⟨0, 0, 1⟩) ⟨0, 0⟩).z ≠ 0 := by
    unfold rayWorld rodrigues Mat3.transpose Mat3.mulVec
    norm_num
  exact ⟨h1, h2, hz,
    (pixel_to_world_is_ray_plane_intersection 1 0 ⟨0, 0, 1⟩ ⟨2, 3, 10⟩ id
      ⟨0, 0⟩ 0 h1 h2 hz).2.1⟩

/-- Claim C2 counterexample: a 90-degree rotation about the x axis
(c = 0, s = 1) with zero translation makes the world ray of pixel (0, 0)
parallel to the plane Z = 5 (its Z component is 0); pixel_to_world
nevertheless returns an ok batch containing an ordinary junk coordinate
(division by zero is not surfaced as an error), and that coordinate does
not lie on the requested plane. -/
theorem pixel_to_world_parallel_ray_counterexample :
    Transformer.pixelToWorld
        ⟨id, some (rodrigues 0 1 ⟨1, 0, 0⟩, ⟨0, 0, 0⟩)⟩ 5 [⟨0, 0⟩] =
      .ok [⟨0, 0, 0⟩] ∧
    (rayWorld id (rodrigues 0 1 ⟨1, 0, 0⟩) ⟨0, 0⟩).z = 0 ∧
    (Vec3.mk 0 0 0).z ≠ 5 := by
  refine ⟨?_, ?_, by norm_num⟩
  · show Except.ok [pixelToWorldPoint id (rodrigues 0 1 ⟨1, 0, 0⟩)
      ⟨0, 0, 0⟩ 5 ⟨0, 0⟩] = Except.ok [⟨0, 0, 0⟩]
    unfold pixelToWorldPoint camPosWorld rayWorld rodrigues Mat3.transpose
      Mat3.mulVec Vec3.neg Vec3.add Vec3.smul
    norm_num
  · unfold rayWorld rodrigues Mat3.transpose Mat3.mulVec
    norm_num

/-- Claim C2 as amended: pixel_to_world with a set extrinsic always
returns an ok batch in which every pixel is converted independently by
the per-point loop body; a pixel whose world ray is parallel to the
target plane is not reported as a domain error — the unchecked division
produces a coordinate that misses the requested plane whenever the
camera is not itself at height z_world. -/
theorem pixel_to_world_division_unchecked (u : Pt2 → Pt2) (R : Mat3)
    (t : Vec3) (zw : ℚ) (ps : List Pt2) :
    Transformer.pixelToWorld ⟨u, some (R, t)⟩ zw ps =
      .ok (ps.map (pixelToWorldPoint u R t zw)) ∧
    ∀ p : Pt2, (rayWorld u R p).z = 0 → (camPosWorld R t).z ≠ zw →
      (pixelToWorldPoint u R t zw p).z ≠ zw := by
  refine ⟨rfl, ?_⟩
  intro p hray hcam
  show (camPosWorld R t).z +
    (zw - (camPosWorld R t).z) / (rayWorld u R p).z *
      (rayWorld u R p).z ≠ zw
  rw [hray, div_zero, zero_mul, add_zero]
  exact hcam

/-- Witness for the amended C2 at the counterexample instance. -/
theorem pixel_to_world_division_unchecked_witness :
    (rayWorld id (rodrigues 0 1 ⟨1, 0, 0⟩) ⟨0, 0⟩).z = 0 ∧
    (camPosWorld (rodrigues 0 1 ⟨1, 0, 0⟩) ⟨0, 0, 0⟩).z ≠ 5 ∧
    (pixelToWorldPoint id (rodrigues 0 1 ⟨1, 0, 0⟩) ⟨0, 0, 0⟩ 5
        ⟨0, 0⟩).z ≠ 5 := by
  have hray : (rayWorld id (rodrigues 0 1 ⟨1, 0, 0⟩) ⟨0, 0⟩).z = 0 := by
    unfold rayWorld rodrigues Mat3.transpose Mat3.mulVec
    norm_num
  have hcam : (camPosWorld (rodrigues 0 1 ⟨1, 0, 0⟩) ⟨0, 0, 0⟩).z ≠ 5 := by
    unfold camPosWorld rodrigues Mat3.transpose Mat3.mulVec Vec3.neg
    norm_num
  exact ⟨hray, hcam,
    (pixel_to_world_division_unchecked id (rodrigues 0 1 ⟨1, 0, 0⟩)
      ⟨0, 0, 0⟩ 5 [⟨0, 0⟩]).2 ⟨0, 0⟩ hray hcam⟩

/-- Case analysis for detect: either the primitive found a corner list of
exactly num_corners and the result is a success carrying the (optionally
refined) list, or the result is a failure carrying no corners. -/
theorem detect_cases (cfg : CheckerboardConfig) (rf : Bool)
    (refine : List Pt2 → List Pt2) (sz : ℕ × ℕ) (prim : PrimDetection) :
    (∃ cs, prim.found = true ∧ prim.corners = some cs ∧
        cs.length = cfg.numCorners ∧
        detect cfg rf refine sz prim =
          ⟨true, some (if rf then refine cs else cs), sz, ""⟩) ∨
      ((detect cfg rf refine sz prim).success = false ∧
        (detect cfg rf refine sz prim).corners = none ∧
        (prim.found = false ∨ prim.corners = none ∨
          ∀ cs, prim.corners = some cs → cs.length ≠ cfg.numCorners)) := by
  obtain ⟨found, corners⟩ := prim
  cases found with
  | false =>
    cases corners with
    | none => exact Or.inr ⟨rfl, rfl, Or.inl rfl⟩
    | some cs => exact Or.inr ⟨rfl, rfl, Or.inl rfl⟩
  | true =>
    cases corners with
    | none => exact Or.inr ⟨rfl, rfl, Or.inr (Or.inl rfl)⟩
    | some cs =>
      by_cases hl : cs.length = cfg.numCorners
      · refine Or.inl ⟨cs, rfl, rfl, hl, ?_⟩
        simp only [detect, hl]
        simp
      · refine Or.inr ⟨?_, ?_, Or.inr (Or.inr ?_)⟩
        · simp only [detect]
          rw [if_pos hl]
        · simp only [detect]
          rw [if_pos hl]
        · intro cs2 hcs2
          cases hcs2
          exact hl

/-- Claim C6: whenever the detection primitive reports failure, returns
no corner array, or returns a corner count different from rows * cols,
detect yields a failed result carrying no corners; and every successful
result carries exactly rows * cols corners (the sub-pixel refinement
oracle preserves the point count by its external contract). -/
theorem corner_detect_validation (cfg : CheckerboardConfig) (rf : Bool)
    (refine : List Pt2 → List Pt2) (sz : ℕ × ℕ) (prim : PrimDetection)
    (hrefine : ∀ l, (refine l).length = l.length) :
    ((prim.found = false ∨ prim.corners = none ∨
        ∀ cs, prim.corners = some cs → cs.length ≠ cfg.numCorners) →
      (detect cfg rf refine sz prim).success = false ∧
        (detect cfg rf refine sz prim).corners = none) ∧
    ((detect cfg rf refine sz prim).success = true →
      ∃ cs, (detect cfg rf refine sz prim).corners = some cs ∧
        cs.length = cfg.rows * cfg.cols) := by
  rcases detect_cases cfg rf refine sz prim with
    ⟨cs, hf, hc, hl, hd⟩ | ⟨h1, h2, _⟩
  · constructor
    · intro h
      rcases h with h | h | h
      · rw [hf] at h
        cases h
      · rw [hc] at h
        cases h
      · exact absurd hl (h cs hc)
    · intro _
      refine ⟨if rf then refine cs else cs, ?_, ?_⟩
      · rw [hd]
      · have : cfg.numCorners = cfg.rows * cfg.cols := rfl
        cases rf with
        | false => simpa using hl.trans this
        | true => simp only [if_pos]; rw [hrefine cs]; exact hl.trans this
  · constructor
    · intro _
      exact ⟨h1, h2⟩
    · intro hs
      rw [h1] at hs
      cases hs

/-- Witness for C6: a 2 x 2 pattern whose primitive returns exactly 4
corners is accepted with 4 corners (refinement oracle: identity). -/
theorem corner_detect_validation_witness :
    ∃ cs, (detect ⟨2, 2, 30⟩ true id (640, 480)
        ⟨true, some [⟨0, 0⟩, ⟨1, 0⟩, ⟨0, 1⟩, ⟨1, 1⟩]⟩).corners = some cs ∧
      cs.length = 2 * 2 :=
  (corner_detect_validation ⟨2, 2, 30⟩ true id (640, 480)
    ⟨true, some [⟨0, 0⟩, ⟨1, 0⟩, ⟨0, 1⟩, ⟨1, 1⟩]⟩ (fun _ => rfl)).2 rfl

/-- Claim C5: can_calibrate holds exactly when at least 3 pairs were
accepted, and calibrate with fewer than 3 accepted pairs fails with
InsufficientImages regardless of the external solver oracles. -/
theorem min_image_gate (st : CalibState) :
    (canCalibrate st = true ↔ 3 ≤ st.imagePoints.length) ∧
    ∀ cfg solve proj, st.imagePoints.length < 3 →
      calibrate cfg st solve proj = .error .insufficientImages := by
  constructor
  · simp [canCalibrate, numValidImages, MIN_IMAGES_FOR_CALIBRATION]
  · intro cfg solve proj h
    have hc : canCalibrate st = false := by
      simp only [canCalibrate, numValidImages, MIN_IMAGES_FOR_CALIBRATION,
        decide_eq_false_iff_not]
      omega
    unfold calibrate
    rw [hc]
    rfl

/-- Witness for C5: a freshly constructed calibrator (0 accepted pairs)
fails with InsufficientImages under concrete oracles. -/
theorem min_image_gate_witness :
    initState.imagePoints.length < 3 ∧
      calibrate ⟨2, 2, 30⟩ initState (fun _ _ _ => ⟨0, Mat3.one, [], []⟩)
        (fun _ _ _ _ => ⟨0, 0⟩) = .error .insufficientImages :=
  ⟨by decide, (min_image_gate initState).2 ⟨2, 2, 30⟩
    (fun _ _ _ => ⟨0, Mat3.one, [], []⟩) (fun _ _ _ _ => ⟨0, 0⟩)
    (by decide)⟩

/-- Claim C3: a successful calibrate returns one error entry per image
actually used, and the entry of image i is obtained by projecting that
image's object points through its own returned pose (pose i of the
solver output) and comparing with its own detected corners, summed
squared residuals divided by the squared point count (the square of the
stacked Euclidean pixel distance averaged per point). -/
theorem per_image_errors_own_pose (cfg : CheckerboardConfig)
    (st : CalibState)
    (solve : List (List Vec3) → List (List Pt2) → ℕ × ℕ → SolverOutput)
    (proj : Pose → Mat3 → List ℚ → Vec3 → Pt2) (sz : ℕ × ℕ)
    (hsz : st.imageSize = some sz)
    (hq : 3 ≤ st.imagePoints.length)
    (hlen : st.objectPoints.length = st.imagePoints.length) :
    ∃ rec, calibrate cfg st solve proj = .ok rec ∧
      rec.numImagesUsed = st.imagePoints.length ∧
      rec.perImageErrSq.length = rec.numImagesUsed ∧
      ∀ i, i < rec.numImagesUsed →
        rec.perImageErrSq.getD i 0 =
          (List.zipWith sqDist (st.imagePoints.getD i [])
              ((st.objectPoints.getD i []).map
                (proj
                  ((solve st.objectPoints st.imagePoints sz).poses.getD i
                    ⟨Vec3.zero, Vec3.zero⟩)
                  (solve st.objectPoints st.imagePoints sz).cameraMatrix
                  (solve st.objectPoints st.imagePoints sz).distCoeffs))).sum /
            ((st.objectPoints.getD i []).length : ℚ) ^ 2 := by
  have hc : canCalibrate st = true := by
    simp only [canCalibrate, numValidImages, MIN_IMAGES_FOR_CALIBRATION,
      decide_eq_true_eq]
    exact hq
  unfold calibrate
  rw [hc, hsz]
  refine ⟨_, rfl, rfl, ?_, ?_⟩
  · simp [numValidImages, hlen]
  · intro i hi
    have hi2 : i < st.objectPoints.length := by
      rw [hlen]
      exact hi
    have hmap : i <
        ((List.range st.objectPoints.length).map fun i =>
          perImageErrSqOf (st.imagePoints.getD i [])
            ((st.objectPoints.getD i []).map
              (proj
                ((solve st.objectPoints st.imagePoints sz).poses.getD i
                  ⟨Vec3.zero, Vec3.zero⟩)
                (solve st.objectPoints st.imagePoints sz).cameraMatrix
                (solve st.objectPoints st.imagePoints sz).distCoeffs))).length := by
      simpa using hi2
    rw [List.getD_eq_getElem _ _ hmap, List.getElem_map, List.getElem_range]
    simp only [perImageErrSqOf, List.length_map]

/-- Witness for C3: three accepted single-point images under concrete
solver and projection oracles calibrate successfully. -/
theorem per_image_errors_own_pose_witness :
    ∃ rec, calibrate ⟨2, 2, 1⟩
        ⟨[[⟨0, 0, 0⟩], [⟨0, 0, 0⟩], [⟨0, 0, 0⟩]],
          [[⟨1, 1⟩], [⟨2, 2⟩], [⟨3, 3⟩]], some (640, 480), []⟩
        (fun _ _ _ => ⟨0, Mat3.one, [],
          [⟨Vec3.zero, Vec3.zero⟩, ⟨Vec3.zero, Vec3.zero⟩,
            ⟨Vec3.zero, Vec3.zero⟩]⟩)
        (fun _ _ _ v => ⟨v.x, v.y⟩) = .ok rec := by
  obtain ⟨rec, h1, -, -, -⟩ := per_image_errors_own_pose ⟨2, 2, 1⟩
    ⟨[[⟨0, 0, 0⟩], [⟨0, 0, 0⟩], [⟨0, 0, 0⟩]],
      [[⟨1, 1⟩], [⟨2, 2⟩], [⟨3, 3⟩]], some (640, 480), []⟩
    (fun _ _ _ => ⟨0, Mat3.one, [],
      [⟨Vec3.zero, Vec3.zero⟩, ⟨Vec3.zero, Vec3.zero⟩,
        ⟨Vec3.zero, Vec3.zero⟩]⟩)
    (fun _ _ _ v => ⟨v.x, v.y⟩) (640, 480) rfl (by decide) rfl
  exact ⟨rec, h1⟩

/-- findSome? over an appended list when the first part yields nothing. -/
theorem findSome?_append_none {α β : Type} (f : α → Option β)
    (l1 l2 : List α) (h : l1.findSome? f = none) :
    (l1 ++ l2).findSome? f = l2.findSome? f := by
  induction l1 with
  | nil => rfl
  | cons a t ih =>
    rw [List.findSome?_cons] at h
    rw [List.cons_append, List.findSome?_cons]
    cases hfa : f a with
    | none =>
      rw [hfa] at h
      simp only at h
      exact ih h
    | some b =>
      rw [hfa] at h
      simp at h

/-- findSome? over an appended list when the first part yields a hit. -/
theorem findSome?_append_some {α β : Type} (f : α → Option β)
    (l1 l2 : List α) (b : β) (h : l1.findSome? f = some b) :
    (l1 ++ l2).findSome? f = some b := by
  induction l1 with
  | nil => simp [List.findSome?] at h
  | cons a t ih =>
    rw [List.findSome?_cons] at h
    rw [List.cons_append, List.findSome?_cons]
    cases hfa : f a with
    | none =>
      rw [hfa] at h
      simp only at h
      exact ih h
    | some c =>
      rw [hfa] at h
      simpa using h

/-- One operation preserves the calibrator bookkeeping invariant. -/
theorem stepOp_preserves (cfg : CheckerboardConfig) (rf : Bool)
    (refine : List Pt2 → List Pt2) (st : CalibState)
    (acc : List CalibOp) (op : CalibOp)
    (h1 : st.objectPoints.length = st.imagePoints.length)
    (h2 : st.imagePoints.length =
      (acc.filter (opAccepted cfg rf refine)).length)
    (h3 : st.imageSize = firstAcceptedSize cfg rf refine acc) :
    (stepOp cfg rf refine st op).objectPoints.length =
        (stepOp cfg rf refine st op).imagePoints.length ∧
      (stepOp cfg rf refine st op).imagePoints.length =
        ((clearStep acc op).filter (opAccepted cfg rf refine)).length ∧
      (stepOp cfg rf refine st op).imageSize =
        firstAcceptedSize cfg rf refine (clearStep acc op) := by
  cases op with
  | clear => exact ⟨rfl, rfl, rfl⟩
  | addImage sz prim =>
    have hstep : stepOp cfg rf refine st (.addImage sz prim) =
        addImage cfg rf refine st sz prim := rfl
    have hacc : clearStep acc (.addImage sz prim) =
        acc ++ [.addImage sz prim] := rfl
    rw [hstep, hacc]
    rcases detect_cases cfg rf refine sz prim with
      ⟨cs, hf, hc, hl, hd⟩ | ⟨hs, hcn, -⟩
    · have hop : opAccepted cfg rf refine (.addImage sz prim) = true := by
        simp only [opAccepted, hd]
      have hadd : addImage cfg rf refine st sz prim =
          { objectPoints := st.objectPoints ++ [generateObjectPoints cfg],
            imagePoints :=
              st.imagePoints ++ [if rf then refine cs else cs],
            imageSize := match st.imageSize with
              | none => some sz
              | some s => some s,
            detections := st.detections ++
              [⟨true, some (if rf then refine cs else cs), sz, ""⟩] } := by
        unfold addImage
        rw [hd]
      rw [hadd]
      refine ⟨?_, ?_, ?_⟩
      · simp [h1]
      · rw [List.filter_append]
        simp only [List.filter, hop]
        simp [h2]
      · show (match st.imageSize with
            | none => some sz
            | some s => some s) =
          firstAcceptedSize cfg rf refine (acc ++ [.addImage sz prim])
        unfold firstAcceptedSize at h3 ⊢
        cases hfs : acc.findSome? fun op =>
            match op with
            | CalibOp.addImage sz prim =>
              if (detect cfg rf refine sz prim).success = true then some sz
              else none
            | CalibOp.clear => none with
        | some s =>
          rw [findSome?_append_some _ _ _ _ hfs]
          rw [hfs] at h3
          rw [h3]
        | none =>
          rw [findSome?_append_none _ _ _ hfs]
          rw [hfs] at h3
          rw [h3]
          simp only [List.findSome?_cons, hd]
          rfl
    · have hop : opAccepted cfg rf refine (.addImage sz prim) = false := by
        simp only [opAccepted, hs]
      rcases hdr : detect cfg rf refine sz prim with ⟨succ, copt, isz, msg⟩
      rw [hdr] at hs hcn
      simp only at hs hcn
      subst hs
      subst hcn
      have hadd : addImage cfg rf refine st sz prim =
          { st with detections :=
              st.detections ++ [⟨false, none, isz, msg⟩] } := by
        unfold addImage
        rw [hdr]
      rw [hadd]
      refine ⟨h1, ?_, ?_⟩
      · rw [List.filter_append]
        simp only [List.filter, hop]
        simp [h2]
      · show st.imageSize =
          firstAcceptedSize cfg rf refine (acc ++ [.addImage sz prim])
        unfold firstAcceptedSize at h3 ⊢
        cases hfs : acc.findSome? fun op =>
            match op with
            | CalibOp.addImage sz prim =>
              if (detect cfg rf refine sz prim).success = true then some sz
              else none
            | CalibOp.clear => none with
        | some s =>
          rw [findSome?_append_some _ _ _ _ hfs]
          rw [hfs] at h3
          exact h3
        | none =>
          rw [findSome?_append_none _ _ _ hfs]
          rw [hfs] at h3
          rw [h3]
          simp only [List.findSome?_cons, hdr]
          rfl

/-- Running operations from any state satisfying the bookkeeping
invariant preserves it. -/
theorem runOps_inv_aux (cfg : CheckerboardConfig) (rf : Bool)
    (refine : List Pt2 → List Pt2) :
    ∀ (ops : List CalibOp) (st : CalibState) (acc : List CalibOp),
      st.objectPoints.length = st.imagePoints.length →
      st.imagePoints.length =
        (acc.filter (opAccepted cfg rf refine)).length →
      st.imageSize = firstAcceptedSize cfg rf refine acc →
      (ops.foldl (stepOp cfg rf refine) st).objectPoints.length =
          (ops.foldl (stepOp cfg rf refine) st).imagePoints.length ∧
        (ops.foldl (stepOp cfg rf refine) st).imagePoints.length =
          ((ops.foldl clearStep acc).filter
            (opAccepted cfg rf refine)).length ∧
        (ops.foldl (stepOp cfg rf refine) st).imageSize =
          firstAcceptedSize cfg rf refine (ops.foldl clearStep acc) := by
  intro ops
  induction ops with
  | nil =>
    intro st acc h1 h2 h3
    exact ⟨h1, h2, h3⟩
  | cons op rest ih =>
    intro st acc h1 h2 h3
    rw [List.foldl_cons, List.foldl_cons]
    obtain ⟨g1, g2, g3⟩ :=
      stepOp_preserves cfg rf refine st acc op h1 h2 h3
    exact ih (stepOp cfg rf refine st op) (clearStep acc op) g1 g2 g3

/-- Claim C10: after any operation sequence the stored object-point and
image-point lists have equal length, equal to the number of successful
detections since the last clear; the cached image size is the size of the
first successful detection since the last clear (set once, none before
any success); a failed add_image leaves both lists and the cached size
unchanged (only the detection log grows); clear resets the calibrator to
its freshly constructed state. -/
theorem calibrator_invariants (cfg : CheckerboardConfig) (rf : Bool)
    (refine : List Pt2 → List Pt2) (ops : List CalibOp) :
    ((runOps cfg rf refine ops).objectPoints.length =
        (runOps cfg rf refine ops).imagePoints.length ∧
      (runOps cfg rf refine ops).imagePoints.length =
        ((opsSinceClear ops).filter (opAccepted cfg rf refine)).length ∧
      (runOps cfg rf refine ops).imageSize =
        firstAcceptedSize cfg rf refine (opsSinceClear ops)) ∧
    (∀ st sz prim, (detect cfg rf refine sz prim).success = false →
      (addImage cfg rf refine st sz prim).objectPoints =
          st.objectPoints ∧
        (addImage cfg rf refine st sz prim).imagePoints =
          st.imagePoints ∧
        (addImage cfg rf refine st sz prim).imageSize = st.imageSize ∧
        (addImage cfg rf refine st sz prim).detections =
          st.detections ++ [detect cfg rf refine sz prim]) ∧
    (∀ st, clearCalibrator st = initState) := by
  refine ⟨?_, ?_, fun _ => rfl⟩
  · exact runOps_inv_aux cfg rf refine ops initState [] rfl rfl rfl
  · intro st sz prim hs
    rcases hdr : detect cfg rf refine sz prim with ⟨succ, copt, isz, msg⟩
    rw [hdr] at hs
    simp only at hs
    subst hs
    have hadd : addImage cfg rf refine st sz prim =
        { st with detections :=
            st.detections ++ [⟨false, copt, isz, msg⟩] } := by
      unfold addImage
      rw [hdr]
    rw [hadd]
    exact ⟨rfl, rfl, rfl, rfl⟩

/-- Witness for C10 on a concrete run: one accepted image, one failed
image, then a clear, then one accepted image. -/
theorem calibrator_invariants_witness :
    ((runOps ⟨2, 2, 1⟩ false id
          [.addImage (640, 480)
              ⟨true, some [⟨0, 0⟩, ⟨1, 0⟩, ⟨0, 1⟩, ⟨1, 1⟩]⟩,
            .addImage (640, 480) ⟨false, none⟩]).imagePoints.length =
        ((opsSinceClear
            [.addImage (640, 480)
                ⟨true, some [⟨0, 0⟩, ⟨1, 0⟩, ⟨0, 1⟩, ⟨1, 1⟩]⟩,
              .addImage (640, 480) ⟨false, none⟩]).filter
          (opAccepted ⟨2, 2, 1⟩ false id)).length) ∧
      (detect ⟨2, 2, 1⟩ false id (640, 480) ⟨false, none⟩).success =
        false ∧
      (addImage ⟨2, 2, 1⟩ false id initState (640, 480)
          ⟨false, none⟩).imagePoints = initState.imagePoints :=
  ⟨(calibrator_invariants ⟨2, 2, 1⟩ false id
      [.addImage (640, 480)
          ⟨true, some [⟨0, 0⟩, ⟨1, 0⟩, ⟨0, 1⟩, ⟨1, 1⟩]⟩,
        .addImage (640, 480) ⟨false, none⟩]).1.2.1,
    rfl,
    ((calibrator_invariants ⟨2, 2, 1⟩ false id []).2.1 initState
      (640, 480) ⟨false, none⟩ rfl).2.1⟩

/-- The row-outer, column-inner iteration order enumerates pair k of the
flattened list as (k / cols, k mod cols). -/
theorem range_flatMap_pairs (gx gy : ℕ) :
    ((List.range gy).flatMap fun j => (List.range gx).map fun i => (j, i)) =
      (List.range (gy * gx)).map fun k => (k / gx, k % gx) := by
  induction gy with
  | zero => simp
  | succ n ih =>
    rw [List.range_succ, Nat.succ_mul, List.range_add]
    rw [List.flatMap_append, ih, List.map_append]
    congr 1
    simp only [List.flatMap_cons, List.flatMap_nil, List.append_nil,
      List.map_map]
    apply List.map_congr_left
    intro i hi
    rw [List.mem_range] at hi
    have hpos : 0 < gx := Nat.pos_of_ne_zero (by omega)
    have hdiv : (n * gx + i) / gx = n := by
      rw [Nat.add_comm, Nat.add_mul_div_right _ _ hpos,
        Nat.div_eq_of_lt hi, Nat.zero_add]
    have hmod : (n * gx + i) % gx = i := by
      rw [Nat.add_comm, Nat.add_mul_mod_self_right, Nat.mod_eq_of_lt hi]
    simp only [Function.comp, hdiv, hmod]

/-- exceptMap succeeds with the plain map when every element succeeds. -/
theorem exceptMap_ok_of_forall {α β ε : Type} (f : α → Except ε β)
    (g : α → β) (l : List α) (h : ∀ x ∈ l, f x = .ok (g x)) :
    exceptMap f l = .ok (l.map g) := by
  induction l with
  | nil => rfl
  | cons x xs ih =>
    have hx : f x = .ok (g x) := h x (by simp)
    have hxs : exceptMap f xs = .ok (xs.map g) :=
      ih fun y hy => h y (by simp [hy])
    simp [exceptMap, hx, hxs]

/-- exceptMap on a nonempty list whose every element fails reports the
failure (and carries no partial output). -/
theorem exceptMap_all_error {α β ε : Type} (f : α → Except ε β) (e : ε)
    (l : List α) (hl : l ≠ []) (h : ∀ x ∈ l, f x = .error e) :
    exceptMap f l = .error e := by
  cases l with
  | nil => cases hl rfl
  | cons x xs =>
    have hx : f x = .error e := h x (by simp)
    simp [exceptMap, hx]

/-- Success case of the grid loop body: with a nonzero determinant the
point is produced from the explicit 2x2 inverse. -/
theorem gridPointCoord_ok (ox oy spacing : ℚ) (i0 j0 : ℕ)
    (uxi uxj uyi uyj : ℚ) (gx : ℕ) (ji : ℕ × ℕ)
    (hdet : uxi * uyj - uyi * uxj ≠ 0) :
    gridPointCoord ox oy spacing i0 j0 uxi uxj uyi uyj gx ji =
      .ok (gridPointValue ox oy spacing i0 j0 uxi uxj uyi uyj gx ji) := by
  unfold gridPointCoord gridPointValue
  rw [if_neg hdet]

/-- The flattened grid index list has one entry per grid point. -/
theorem grid_pairs_length (gx gy : ℕ) :
    ((List.range gy).flatMap fun j =>
      (List.range gx).map fun i => (j, i)).length = gy * gx := by
  rw [range_flatMap_pairs]
  simp

/-- Claim C8: with the origin index in range, a zero determinant (the
two chosen directions parallel) makes generation fail with
DegenerateAxes before any coordinate is emitted and without executing
the division; the determinant of the four axis choices is zero exactly
when the two coefficient vectors are equal or opposite; a nonzero
determinant always lets generation succeed. -/
theorem degenerate_axes_checked (ox oy : ℚ) (gx gy : ℕ) (spacing : ℚ)
    (robotPoint : ℕ) (xdir ydir : GridDirection)
    (hp1 : 1 ≤ robotPoint) (hp2 : robotPoint ≤ gx * gy) :
    ((gridDirectionCoeff xdir).1 * (gridDirectionCoeff ydir).2 -
        (gridDirectionCoeff ydir).1 * (gridDirectionCoeff xdir).2 = 0 →
      generateChessboardCoords ox oy gx gy spacing robotPoint xdir ydir =
        .error .degenerateAxes) ∧
    ((gridDirectionCoeff xdir).1 * (gridDirectionCoeff ydir).2 -
        (gridDirectionCoeff ydir).1 * (gridDirectionCoeff xdir).2 = 0 ↔
      gridDirectionCoeff xdir = gridDirectionCoeff ydir ∨
        gridDirectionCoeff xdir =
          (-(gridDirectionCoeff ydir).1, -(gridDirectionCoeff ydir).2)) ∧
    ((gridDirectionCoeff xdir).1 * (gridDirectionCoeff ydir).2 -
        (gridDirectionCoeff ydir).1 * (gridDirectionCoeff xdir).2 ≠ 0 →
      ∃ l, generateChessboardCoords ox oy gx gy spacing robotPoint
        xdir ydir = .ok l) := by
  have hcond : ¬(robotPoint < 1 ∨ robotPoint > gx * gy) := by omega
  have hne : ((List.range gy).flatMap fun j =>
      (List.range gx).map fun i => (j, i)) ≠ [] := by
    have hpos : 0 < gy * gx := by
      rw [Nat.mul_comm]
      have h1 : 1 ≤ gx * gy := le_trans hp1 hp2
      omega
    have hlen := grid_pairs_length gx gy
    intro hniil
    rw [hniil] at hlen
    simp only [List.length_nil] at hlen
    omega
  refine ⟨?_, ?_, ?_⟩
  · intro hdet
    unfold generateChessboardCoords
    rw [if_neg hcond]
    apply exceptMap_all_error _ _ _ hne
    intro ji _
    unfold gridPointCoord
    rw [if_pos hdet]
  · cases xdir <;> cases ydir <;>
      norm_num [gridDirectionCoeff, Prod.ext_iff]
  · intro hdet
    unfold generateChessboardCoords
    rw [if_neg hcond]
    exact ⟨_, exceptMap_ok_of_forall _ _ _
      fun ji _ => gridPointCoord_ok _ _ _ _ _ _ _ _ _ _ ji hdet⟩

/-- Witness for C8: both physical axes mapped to +column on a 3x3 grid
with origin point 5 fails with DegenerateAxes. -/
theorem degenerate_axes_checked_witness :
    generateChessboardCoords 0 0 3 3 10 5 .imageXPos .imageXPos =
      .error .degenerateAxes :=
  (degenerate_axes_checked 0 0 3 3 10 5 .imageXPos .imageXPos
    (by norm_num) (by norm_num)).1 (by norm_num [gridDirectionCoeff])

/-- Claim C7: for every grid point (i, j), a successful generation
assigns it (at list position j * cols + i, with 1-based id) the physical
coordinate origin + (a, b) * spacing where (a, b) solves the 2x2 system
delta = a * ux + b * uy for the offset delta from the origin point
(i0 = (p - 1) mod cols, j0 = (p - 1) div cols). -/
theorem grid_coords_solve_linear_system (ox oy : ℚ) (gx gy : ℕ)
    (spacing : ℚ) (robotPoint : ℕ) (xdir ydir : GridDirection)
    (i j : ℕ) (hi : i < gx) (hj : j < gy)
    (hp1 : 1 ≤ robotPoint) (hp2 : robotPoint ≤ gx * gy)
    (hdet : (gridDirectionCoeff xdir).1 * (gridDirectionCoeff ydir).2 -
        (gridDirectionCoeff ydir).1 * (gridDirectionCoeff xdir).2 ≠ 0) :
    ∃ l a b,
      generateChessboardCoords ox oy gx gy spacing robotPoint xdir ydir =
          .ok l ∧
        (gridDirectionCoeff xdir).1 * a + (gridDirectionCoeff ydir).1 * b =
          (i : ℚ) - (((robotPoint - 1) % gx : ℕ) : ℚ) ∧
        (gridDirectionCoeff xdir).2 * a + (gridDirectionCoeff ydir).2 * b =
          (j : ℚ) - (((robotPoint - 1) / gx : ℕ) : ℚ) ∧
        l.getD (j * gx + i) default =
          ⟨j * gx + i + 1, ox + a * spacing, oy + b * spacing⟩ := by
  have hcond : ¬(robotPoint < 1 ∨ robotPoint > gx * gy) := by omega
  have hok : generateChessboardCoords ox oy gx gy spacing robotPoint
      xdir ydir =
      .ok (((List.range gy).flatMap fun j2 =>
          (List.range gx).map fun i2 => (j2, i2)).map
        (gridPointValue ox oy spacing ((robotPoint - 1) % gx)
          ((robotPoint - 1) / gx) (gridDirectionCoeff xdir).1
          (gridDirectionCoeff xdir).2 (gridDirectionCoeff ydir).1
          (gridDirectionCoeff ydir).2 gx)) := by
    unfold generateChessboardCoords
    rw [if_neg hcond]
    exact exceptMap_ok_of_forall _ _ _
      fun ji _ => gridPointCoord_ok _ _ _ _ _ _ _ _ _ _ ji hdet
  refine ⟨_,
    (gridDirectionCoeff ydir).2 /
        ((gridDirectionCoeff xdir).1 * (gridDirectionCoeff ydir).2 -
          (gridDirectionCoeff ydir).1 * (gridDirectionCoeff xdir).2) *
        ((i : ℚ) - (((robotPoint - 1) % gx : ℕ) : ℚ)) +
      -(gridDirectionCoeff ydir).1 /
        ((gridDirectionCoeff xdir).1 * (gridDirectionCoeff ydir).2 -
          (gridDirectionCoeff ydir).1 * (gridDirectionCoeff xdir).2) *
        ((j : ℚ) - (((robotPoint - 1) / gx : ℕ) : ℚ)),
    -(gridDirectionCoeff xdir).2 /
        ((gridDirectionCoeff xdir).1 * (gridDirectionCoeff ydir).2 -
          (gridDirectionCoeff ydir).1 * (gridDirectionCoeff xdir).2) *
        ((i : ℚ) - (((robotPoint - 1) % gx : ℕ) : ℚ)) +
      (gridDirectionCoeff xdir).1 /
        ((gridDirectionCoeff xdir).1 * (gridDirectionCoeff ydir).2 -
          (gridDirectionCoeff ydir).1 * (gridDirectionCoeff xdir).2) *
        ((j : ℚ) - (((robotPoint - 1) / gx : ℕ) : ℚ)),
    hok, ?_, ?_, ?_⟩
  · field_simp
    ring
  · field_simp
    ring
  · have hpos : 0 < gx := Nat.pos_of_ne_zero (by omega)
    have hidx : j * gx + i < gy * gx := by
      have h1 : j * gx + i < (j + 1) * gx := by
        rw [Nat.add_mul, Nat.one_mul]
        omega
      exact lt_of_lt_of_le h1 (Nat.mul_le_mul_right gx hj)
    have hdiv : (j * gx + i) / gx = j := by
      rw [Nat.add_comm, Nat.add_mul_div_right _ _ hpos,
        Nat.div_eq_of_lt hi, Nat.zero_add]
    have hmod : (j * gx + i) % gx = i := by
      rw [Nat.add_comm, Nat.add_mul_mod_self_right, Nat.mod_eq_of_lt hi]
    rw [range_flatMap_pairs, List.map_map]
    rw [List.getD_eq_getElem _ _
      (by rw [List.length_map, List.length_range]; exact hidx)]
    rw [List.getElem_map, List.getElem_range]
    simp only [Function.comp_apply, hdiv, hmod]
    unfold gridPointValue
    rfl

/-- Witness for C7: the 3x3 grid with origin at point 5, spacing 10,
physical +X mapped to +column and physical +Y mapped to +row; point 1
(grid (0, 0)) receives origin + (-10, -10) and point 9 (grid (2, 2))
receives origin + (10, 10). -/
theorem grid_coords_solve_linear_system_witness :
    (∃ l a b,
      generateChessboardCoords 0 0 3 3 10 5 .imageXPos .imageYPos =
          .ok l ∧
        (gridDirectionCoeff .imageXPos).1 * a +
            (gridDirectionCoeff .imageYPos).1 * b =
          ((0 : ℕ) : ℚ) - ((((5 : ℕ) - 1) % 3 : ℕ) : ℚ) ∧
        (gridDirectionCoeff .imageXPos).2 * a +
            (gridDirectionCoeff .imageYPos).2 * b =
          ((0 : ℕ) : ℚ) - ((((5 : ℕ) - 1) / 3 : ℕ) : ℚ) ∧
        l.getD (0 * 3 + 0) default =
          ⟨0 * 3 + 0 + 1, 0 + a * 10, 0 + b * 10⟩) ∧
      generateChessboardCoords 0 0 3 3 10 5 .imageXPos .imageYPos =
        .ok [⟨1, -10, -10⟩, ⟨2, 0, -10⟩, ⟨3, 10, -10⟩,
          ⟨4, -10, 0⟩, ⟨5, 0, 0⟩, ⟨6, 10, 0⟩,
          ⟨7, -10, 10⟩, ⟨8, 0, 10⟩, ⟨9, 10, 10⟩] :=
  ⟨grid_coords_solve_linear_system 0 0 3 3 10 5 .imageXPos .imageYPos
    0 0 (by norm_num) (by norm_num) (by norm_num) (by norm_num)
    (by norm_num [gridDirectionCoeff]),
    by
      unfold generateChessboardCoords
      rw [if_neg (by norm_num)]
      norm_num [exceptMap, gridPointCoord, gridDirectionCoeff,
        List.range_succ]⟩

/-- Claim C4 counterexample: a 3-point correspondence set under the
three-point-capable P3P algorithm is rejected up front by
estimate_extrinsic (flat 4-point minimum), for any solver oracle
behaviour, contradicting that 3 points succeed under a 3-point-capable
algorithm on every pose-solve path. -/
theorem three_point_p3p_rejected :
    estimateExtrinsic
        [⟨0, 0, 0, 0⟩, ⟨1, 0, 10, 0⟩, ⟨0, 1, 0, 10⟩] .p3p
        (fun _ _ _ => some (Vec3.zero, Vec3.zero)) =
      .error .tooFewPoints ∧
    minPoints .p3p = 3 :=
  ⟨rfl, rfl⟩

/-- Claim C4 as amended: the main-window pose path enforces
min_points(algorithm) — 3 for P3P and AP3P, 4 for every other family —
rejecting a request below the minimum before any solve attempt and
accepting one that meets it; the legacy estimate_extrinsic instead
rejects every request with fewer than 4 points regardless of algorithm,
so a 3-point set is rejected up front there even under P3P or AP3P. -/
theorem pose_min_points_gate (algo : PnpAlgorithm) (nw np : ℕ) :
    (minPoints .p3p = 3 ∧ minPoints .ap3p = 3 ∧
      (algo ≠ .p3p → algo ≠ .ap3p → minPoints algo = 4)) ∧
    (nw < minPoints algo → np < minPoints algo →
      selectPoseSource algo nw np = .error .tooFewPoints) ∧
    (minPoints algo ≤ nw →
      selectPoseSource algo nw np = .ok .webcamPoints) ∧
    (∀ (pts : List MarkPoint) solve, pts.length < 4 →
      estimateExtrinsic pts algo solve = .error .tooFewPoints) := by
  refine ⟨⟨rfl, rfl, ?_⟩, ?_, ?_, ?_⟩
  · intro h1 h2
    cases algo with
    | p3p => exact absurd rfl h1
    | ap3p => exact absurd rfl h2
    | iterative => rfl
    | epnp => rfl
    | ippe => rfl
    | ippeSquare => rfl
  · intro h1 h2
    unfold selectPoseSource
    rw [if_neg (by omega), if_neg (by omega)]
  · intro h
    unfold selectPoseSource
    rw [if_pos h]
  · intro pts solve h
    unfold estimateExtrinsic
    rw [if_pos h]

/-- Witness for the amended C4: 3 webcam points pass the gate under P3P;
3 points fail the gate under the iterative family; estimate_extrinsic
rejects a concrete 3-point set under the iterative family. -/
theorem pose_min_points_gate_witness :
    selectPoseSource .p3p 3 0 = .ok .webcamPoints ∧
    selectPoseSource .iterative 3 3 = .error .tooFewPoints ∧
    estimateExtrinsic [⟨0, 0, 0, 0⟩, ⟨1, 0, 10, 0⟩, ⟨0, 1, 0, 10⟩]
        .iterative (fun _ _ _ => some (Vec3.zero, Vec3.zero)) =
      .error .tooFewPoints :=
  ⟨(pose_min_points_gate .p3p 3 0).2.2.1 (by norm_num [minPoints]),
    (pose_min_points_gate .iterative 3 3).2.1 (by norm_num [minPoints])
      (by norm_num [minPoints]),
    (pose_min_points_gate .iterative 3 3).2.2.2
      [⟨0, 0, 0, 0⟩, ⟨1, 0, 10, 0⟩, ⟨0, 1, 0, 10⟩]
      (fun _ _ _ => some (Vec3.zero, Vec3.zero)) (by norm_num)⟩

end VisionCalib
